import Mathlib

/-!
Verification of the inventory reconciliation, stock-query and reporting logic
of the Product Catalog API (Express/Mongoose backend).

The development shallowly embeds the route handlers of
`src/routes/inventoryRoutes.js`, `src/routes/reportRoutes.js` and the search
routes as pure Lean functions over an explicit product collection
(`List Product` standing for the MongoDB collection).  MongoDB query objects
built by the handlers are embedded by their documented evaluation semantics;
in particular the difference between `$elemMatch` (one array element must
satisfy all operators of the sub-document) and plain dotted-path / multi-
operator conditions on an array field (each operator may be satisfied by a
*different* array element) is modelled faithfully, because two of the
handlers rely on the latter form.

JavaScript `undefined` is modelled as `none`; truthiness checks on string
fields treat `some ""` like `none` exactly where the source uses `if (x)`.
Monetary amounts are embedded as rationals, `Number.toFixed(2)` as rounding
to two decimal places.
-/

namespace Catalog

/-- A product variant sub-document: `{ size, color, stock }`. -/
structure Variant where
  size : String
  color : String
  stock : Int
deriving DecidableEq, Repr

/-- A category document (`models/categories`): identity and name. -/
structure CategoryDoc where
  id : Nat
  name : String
deriving DecidableEq, Repr

/-- A product document with the fields used by the inventory, search and
report routes (`models/Product`): identity, name, description, price, main
stock, optional inventory location/status, nullable category reference and
the embedded variant array. -/
structure Product where
  id : Nat
  name : String
  description : String
  price : Rat
  stock : Int
  inventoryLocation : Option String
  inventoryStatus : Option String
  category : Option CategoryDoc
  variants : List Variant
deriving DecidableEq, Repr

/-- The transient `InventoryUpdate` input of the reconciler:
`{ stock, location, status, variants }` destructured from `req.body`.
`none` stands for a JavaScript `undefined` field. -/
structure InventoryUpdate where
  stock : Option Int
  location : Option String
  status : Option String
  variants : Option (List Variant)
deriving Repr

/-- `findById` of the Product store: first document with the given id. -/
def findById (db : List Product) (pid : Nat) : Option Product :=
  db.find? (fun p => p.id == pid)

/-- `product.save()`: persist the (mutated) document back into the
collection, replacing the document(s) carrying its id. -/
def saveProduct (db : List Product) (p : Product) : List Product :=
  db.map (fun q => if q.id == p.id then p else q)

/-- One variant delta of an update, applied to the current variant list
(`inventoryRoutes.js` lines 47-59): `findIndex` on the `(size, color)` key;
on a hit the existing variant's `stock` is overwritten with the delta's
stock, otherwise the delta is pushed at the end. -/
def applyDelta : List Variant → Variant → List Variant
  | [], d => [d]
  | v :: vs, d =>
      if v.size == d.size && v.color == d.color then
        { v with stock := d.stock } :: vs
      else
        v :: applyDelta vs d

/-- `variants.forEach(updatedVariant => ...)`: the deltas are folded over the
variant list in request order, each one seeing the list as mutated by the
previous deltas. -/
def applyVariantDeltas (vs : List Variant) (ds : List Variant) : List Variant :=
  ds.foldl applyDelta vs

/-- The field-update logic shared verbatim by `PUT /api/inventory/:id` and by
each item of `PUT /api/inventory/bulk-update` (`inventoryRoutes.js`
lines 20-61 and 147-185):
`if (stock !== undefined) product.stock = stock;`
`if (location) product.inventoryLocation = location;`
`if (status) product.inventoryStatus = status;`
then the variant merge when a variant array is supplied. -/
def applyInventoryUpdate (p : Product) (u : InventoryUpdate) : Product :=
  let p1 := match u.stock with
    | some s => { p with stock := s }
    | none => p
  let p2 := match u.location with
    | some l => if l == "" then p1 else { p1 with inventoryLocation := some l }
    | none => p1
  let p3 := match u.status with
    | some s => if s == "" then p2 else { p2 with inventoryStatus := some s }
    | none => p2
  match u.variants with
  | some ds => { p3 with variants := applyVariantDeltas p3.variants ds }
  | none => p3

/-- `PUT /api/inventory/:id`: look up the product, 404 when absent, apply the
update and persist: returns the new collection and the updated document. -/
def updateInventory (db : List Product) (pid : Nat) (u : InventoryUpdate) :
    Except String (List Product × Product) :=
  match findById db pid with
  | none => .error "Product not found"
  | some p =>
      let p' := applyInventoryUpdate p u
      .ok (saveProduct db p', p')

/-- The `(size, color)` identity key of a variant. -/
def variantKey (v : Variant) : String × String := (v.size, v.color)

/-- Key lists of a variant list. -/
def variantKeys (vs : List Variant) : List (String × String) :=
  vs.map variantKey

lemma applyDelta_of_not_mem (d : Variant) :
    ∀ vs : List Variant,
      (∀ v ∈ vs, ¬(v.size = d.size ∧ v.color = d.color)) →
      applyDelta vs d = vs ++ [d] := by
  intro vs
  induction vs with
  | nil => intro _; rfl
  | cons v vs ih =>
      intro h
      have hv := h v (by simp)
      have hcond : (v.size == d.size && v.color == d.color) = false := by
        cases h1 : v.size == d.size <;> cases h2 : v.color == d.color <;>
          simp_all [beq_iff_eq]
      simp only [applyDelta, hcond, Bool.false_eq_true, if_false, List.cons_append,
        List.cons.injEq, true_and]
      exact ih (fun w hw => h w (by simp [hw]))

lemma applyDelta_of_split (d : Variant) (l₁ : List Variant) (v : Variant) (l₂ : List Variant)
    (h₁ : ∀ w ∈ l₁, ¬(w.size = d.size ∧ w.color = d.color))
    (hv : v.size = d.size ∧ v.color = d.color) :
    applyDelta (l₁ ++ v :: l₂) d = l₁ ++ { v with stock := d.stock } :: l₂ := by
  induction l₁ with
  | nil =>
      have hcond : (v.size == d.size && v.color == d.color) = true := by
        simp [beq_iff_eq, hv.1, hv.2]
      simp [applyDelta, hcond]
  | cons w l₁ ih =>
      have hw : ¬(w.size = d.size ∧ w.color = d.color) := h₁ w (by simp)
      have hcond : (w.size == d.size && w.color == d.color) = false := by
        cases h1 : w.size == d.size <;> cases h2 : w.color == d.color <;>
          simp_all [beq_iff_eq]
      simp only [List.cons_append, List.append_eq, applyDelta, hcond, Bool.false_eq_true,
        if_false, List.cons.injEq, true_and]
      exact ih (fun u hu => h₁ u (by simp [hu]))

/-- Non-variant fields are never touched by the variant merge. -/
lemma applyInventoryUpdate_variantsOnly (p : Product) (ds : List Variant) :
    applyInventoryUpdate p ⟨none, none, none, some ds⟩ =
      { p with variants := applyVariantDeltas p.variants ds } := rfl

lemma applyInventoryUpdate_stock (p : Product) (u : InventoryUpdate) :
    (applyInventoryUpdate p u).stock =
      match u.stock with
      | some s => s
      | none => p.stock := by
  obtain ⟨us, ul, ust, uv⟩ := u
  cases us <;> cases ul <;> cases ust <;> cases uv <;>
    simp only [applyInventoryUpdate] <;> (repeat' split) <;> rfl

lemma applyInventoryUpdate_inventoryLocation (p : Product) (u : InventoryUpdate) :
    (applyInventoryUpdate p u).inventoryLocation =
      match u.location with
      | some l => if l == "" then p.inventoryLocation else some l
      | none => p.inventoryLocation := by
  obtain ⟨us, ul, ust, uv⟩ := u
  cases us <;> cases ul <;> cases ust <;> cases uv <;>
    simp only [applyInventoryUpdate] <;> (repeat' split) <;> rfl

lemma applyInventoryUpdate_inventoryStatus (p : Product) (u : InventoryUpdate) :
    (applyInventoryUpdate p u).inventoryStatus =
      match u.status with
      | some s => if s == "" then p.inventoryStatus else some s
      | none => p.inventoryStatus := by
  obtain ⟨us, ul, ust, uv⟩ := u
  cases us <;> cases ul <;> cases ust <;> cases uv <;>
    simp only [applyInventoryUpdate] <;> (repeat' split) <;> rfl

lemma applyInventoryUpdate_variants (p : Product) (u : InventoryUpdate) :
    (applyInventoryUpdate p u).variants =
      match u.variants with
      | some ds => applyVariantDeltas p.variants ds
      | none => p.variants := by
  obtain ⟨us, ul, ust, uv⟩ := u
  cases us <;> cases ul <;> cases ust <;> cases uv <;>
    simp only [applyInventoryUpdate] <;> (repeat' split) <;> rfl

lemma applyInventoryUpdate_id (p : Product) (u : InventoryUpdate) :
    (applyInventoryUpdate p u).id = p.id := by
  obtain ⟨us, ul, ust, uv⟩ := u
  cases us <;> cases ul <;> cases ust <;> cases uv <;>
    simp only [applyInventoryUpdate] <;> (repeat' split) <;> rfl

/-- C1: per-field update rule of the reconciler, shared by the single-product
route and every batch item: a defined `stock` (including 0) replaces the main
stock, an undefined one leaves it unchanged; `location` and `status` are only
replaced by truthy values, so `undefined` and the empty string both leave the
corresponding field unchanged. -/
theorem inventory_update_per_field_rule (p : Product) (u : InventoryUpdate) :
    (∀ s, u.stock = some s → (applyInventoryUpdate p u).stock = s) ∧
    (u.stock = none → (applyInventoryUpdate p u).stock = p.stock) ∧
    (u.location = none →
      (applyInventoryUpdate p u).inventoryLocation = p.inventoryLocation) ∧
    (u.location = some "" →
      (applyInventoryUpdate p u).inventoryLocation = p.inventoryLocation) ∧
    (∀ l, u.location = some l → l ≠ "" →
      (applyInventoryUpdate p u).inventoryLocation = some l) ∧
    (u.status = none →
      (applyInventoryUpdate p u).inventoryStatus = p.inventoryStatus) ∧
    (u.status = some "" →
      (applyInventoryUpdate p u).inventoryStatus = p.inventoryStatus) ∧
    (∀ s, u.status = some s → s ≠ "" →
      (applyInventoryUpdate p u).inventoryStatus = some s) := by
  refine ⟨?_, ?_, ?_, ?_, ?_, ?_, ?_, ?_⟩
  · intro s hs; rw [applyInventoryUpdate_stock, hs]
  · intro hs; rw [applyInventoryUpdate_stock, hs]
  · intro hl; rw [applyInventoryUpdate_inventoryLocation, hl]
  · intro hl; rw [applyInventoryUpdate_inventoryLocation, hl]; simp
  · intro l hl hne
    rw [applyInventoryUpdate_inventoryLocation, hl]
    simp [beq_iff_eq, hne]
  · intro hs; rw [applyInventoryUpdate_inventoryStatus, hs]
  · intro hs; rw [applyInventoryUpdate_inventoryStatus, hs]; simp
  · intro s hs hne
    rw [applyInventoryUpdate_inventoryStatus, hs]
    simp [beq_iff_eq, hne]

/-- Concrete product used by the reconciler witnesses. -/
def reconWitnessProduct : Product :=
  { id := 1, name := "Shirt", description := "cotton", price := 10, stock := 7,
    inventoryLocation := some "A1", inventoryStatus := some "in-stock",
    category := none, variants := [⟨"M", "red", 3⟩, ⟨"L", "red", 4⟩] }

/-- Witness for C1: an update carrying `stock = 0` and `location = ""` sets
the main stock to exactly 0 and leaves the location alone. -/
theorem inventory_update_per_field_rule_witness :
    (applyInventoryUpdate reconWitnessProduct ⟨some 0, some "", none, none⟩).stock = 0 ∧
    (applyInventoryUpdate reconWitnessProduct ⟨some 0, some "", none, none⟩).inventoryLocation
      = reconWitnessProduct.inventoryLocation :=
  ⟨(inventory_update_per_field_rule reconWitnessProduct ⟨some 0, some "", none, none⟩).1 0 rfl,
   (inventory_update_per_field_rule reconWitnessProduct ⟨some 0, some "", none, none⟩).2.2.2.1 rfl⟩

/-- C2: a variant-only update behaves as a frame rule: no product field other
than `variants` changes; a delta whose `(size, color)` key matches no
existing variant is appended; a delta matching an existing variant rewrites
only that variant's stock, leaving every other variant untouched. -/
theorem variant_delta_frame (p : Product) (d : Variant) :
    ((applyInventoryUpdate p ⟨none, none, none, some [d]⟩).id = p.id ∧
     (applyInventoryUpdate p ⟨none, none, none, some [d]⟩).name = p.name ∧
     (applyInventoryUpdate p ⟨none, none, none, some [d]⟩).description = p.description ∧
     (applyInventoryUpdate p ⟨none, none, none, some [d]⟩).price = p.price ∧
     (applyInventoryUpdate p ⟨none, none, none, some [d]⟩).stock = p.stock ∧
     (applyInventoryUpdate p ⟨none, none, none, some [d]⟩).inventoryLocation
        = p.inventoryLocation ∧
     (applyInventoryUpdate p ⟨none, none, none, some [d]⟩).inventoryStatus
        = p.inventoryStatus ∧
     (applyInventoryUpdate p ⟨none, none, none, some [d]⟩).category = p.category) ∧
    ((∀ v ∈ p.variants, ¬(v.size = d.size ∧ v.color = d.color)) →
      (applyInventoryUpdate p ⟨none, none, none, some [d]⟩).variants = p.variants ++ [d]) ∧
    (∀ l₁ v l₂, p.variants = l₁ ++ v :: l₂ →
      (∀ w ∈ l₁, ¬(w.size = d.size ∧ w.color = d.color)) →
      v.size = d.size ∧ v.color = d.color →
      (applyInventoryUpdate p ⟨none, none, none, some [d]⟩).variants
        = l₁ ++ { v with stock := d.stock } :: l₂) := by
  have hvar : (applyInventoryUpdate p ⟨none, none, none, some [d]⟩).variants
      = applyDelta p.variants d := rfl
  refine ⟨⟨rfl, rfl, rfl, rfl, rfl, rfl, rfl, rfl⟩, ?_, ?_⟩
  · intro h
    rw [hvar]
    exact applyDelta_of_not_mem d p.variants h
  · intro l₁ v l₂ hsplit h₁ hv
    rw [hvar, hsplit]
    exact applyDelta_of_split d l₁ v l₂ h₁ hv

/-- Witness for C2: updating the second variant of the witness product
rewrites only its stock. -/
theorem variant_delta_frame_witness :
    (applyInventoryUpdate reconWitnessProduct ⟨none, none, none, some [⟨"L", "red", 9⟩]⟩).variants
      = [⟨"M", "red", 3⟩, ⟨"L", "red", 9⟩] :=
  (variant_delta_frame reconWitnessProduct ⟨"L", "red", 9⟩).2.2
    [⟨"M", "red", 3⟩] ⟨"L", "red", 4⟩ [] rfl (by decide) (by decide)

lemma variantKeys_applyDelta (d : Variant) : ∀ vs : List Variant,
    variantKeys (applyDelta vs d) =
      if vs.any (fun v => v.size == d.size && v.color == d.color)
      then variantKeys vs
      else variantKeys vs ++ [(d.size, d.color)] := by
  intro vs
  induction vs with
  | nil => simp [applyDelta, variantKeys, variantKey]
  | cons v vs ih =>
      by_cases h : (v.size == d.size && v.color == d.color) = true
      · simp [applyDelta, h, variantKeys, variantKey, List.any_cons]
      · have hf : (v.size == d.size && v.color == d.color) = false := by
          simpa using h
        by_cases hvs : vs.any (fun v => v.size == d.size && v.color == d.color) = true
        · simp [applyDelta, hf, variantKeys, variantKey, List.any_cons, hvs,
            variantKeys_applyDelta] at ih ⊢
          simpa [variantKeys, variantKey] using ih
        · have hvsf : vs.any (fun v => v.size == d.size && v.color == d.color) = false := by
            simpa using hvs
          simp [applyDelta, hf, variantKeys, variantKey, List.any_cons, hvsf] at ih ⊢
          simpa [variantKeys, variantKey] using ih

lemma nodup_variantKeys_applyVariantDeltas (ds : List Variant) :
    ∀ vs : List Variant, (variantKeys vs).Nodup →
      (variantKeys (applyVariantDeltas vs ds)).Nodup := by
  induction ds with
  | nil => intro vs h; exact h
  | cons d ds ih =>
      intro vs h
      have step : (variantKeys (applyDelta vs d)).Nodup := by
        rw [variantKeys_applyDelta]
        by_cases hc : vs.any (fun v => v.size == d.size && v.color == d.color) = true
        · simpa [hc] using h
        · have hcf : vs.any (fun v => v.size == d.size && v.color == d.color) = false := by
            simpa using hc
          simp only [hcf, Bool.false_eq_true, if_false]
          rw [List.nodup_append]
          refine ⟨h, List.nodup_singleton _, ?_⟩
          intro k hk hk'
          simp only [List.mem_singleton] at hk'
          subst hk'
          simp only [variantKeys, List.mem_map] at hk
          obtain ⟨v, hv, hkey⟩ := hk
          have : ¬(v.size == d.size && v.color == d.color) = true := by
            intro hcontra
            have hany : vs.any (fun v => v.size == d.size && v.color == d.color) = true :=
              List.any_eq_true.mpr ⟨v, hv, hcontra⟩
            rw [hany] at hcf
            exact Bool.true_eq_false.mp hcf
          apply this
          have h1 : v.size = d.size := congrArg Prod.fst hkey
          have h2 : v.color = d.color := congrArg Prod.snd hkey
          simp [h1, h2]
      exact ih (applyDelta vs d) step

/-- C9: the per-product uniqueness of variant `(size, color)` keys is
preserved by the reconciler for every update, including updates whose
variant-delta list repeats a key: each delta is matched against the
already-mutated variant list, so a repeated key hits the variant appended by
an earlier delta instead of appending a duplicate. -/
theorem variant_key_uniqueness_preserved (p : Product) (u : InventoryUpdate)
    (h : (variantKeys p.variants).Nodup) :
    (variantKeys (applyInventoryUpdate p u).variants).Nodup := by
  rw [applyInventoryUpdate_variants]
  cases hu : u.variants with
  | none => exact h
  | some ds => exact nodup_variantKeys_applyVariantDeltas ds p.variants h

/-- Witness for C9: an update whose delta list repeats the key
`("XL", "blue")` still leaves the variant keys duplicate-free. -/
theorem variant_key_uniqueness_preserved_witness :
    (variantKeys reconWitnessProduct.variants).Nodup ∧
    (variantKeys (applyInventoryUpdate reconWitnessProduct
        ⟨none, none, none, some [⟨"XL", "blue", 2⟩, ⟨"XL", "blue", 7⟩]⟩).variants).Nodup :=
  ⟨by decide,
   variant_key_uniqueness_preserved reconWitnessProduct
     ⟨none, none, none, some [⟨"XL", "blue", 2⟩, ⟨"XL", "blue", 7⟩]⟩ (by decide)⟩

/-- The combine-and-deduplicate step shared by `GET /api/inventory/low-stock`
and `GET /api/reports/low-stock`: starting from the first result set, each
product of the second set is appended unless a product with the same id is
already present (`if (!combined.some(p => p._id.toString() === ...)) push`). -/
def dedupAppend : List Product → List Product → List Product
  | acc, [] => acc
  | acc, p :: rest =>
      if acc.any (fun q => q.id == p.id) then dedupAppend acc rest
      else dedupAppend (acc ++ [p]) rest

lemma dedupAppend_eq : ∀ (xs acc : List Product),
    (xs.map Product.id).Nodup →
    dedupAppend acc xs = acc ++ xs.filter (fun p => !acc.any (fun q => q.id == p.id)) := by
  intro xs
  induction xs with
  | nil => intro acc _; simp [dedupAppend]
  | cons p rest ih =>
      intro acc h
      rw [List.map_cons, List.nodup_cons] at h
      obtain ⟨hpid, hrest⟩ := h
      by_cases hc : acc.any (fun q => q.id == p.id) = true
      · simp only [dedupAppend, hc, if_true]
        rw [ih acc hrest, List.filter_cons]
        simp [hc]
      · have hcf : acc.any (fun q => q.id == p.id) = false := by simpa using hc
        simp only [dedupAppend, hcf, Bool.false_eq_true, if_false]
        rw [ih (acc ++ [p]) hrest, List.filter_cons]
        simp only [hcf, Bool.not_false, if_pos]
        have hne : ∀ q ∈ rest,
            (!(acc ++ [p]).any (fun r => r.id == q.id)) = (!acc.any (fun r => r.id == q.id)) := by
          intro q hq
          have hqp : q.id ≠ p.id := by
            intro hcontra
            exact hpid (hcontra ▸ List.mem_map_of_mem Product.id hq)
          have hpq : (p.id == q.id) = false := beq_eq_false_iff_ne.mpr (Ne.symm hqp)
          simp [List.any_append, hpq]
        rw [List.filter_congr hne]
        simp

lemma any_filter_id (db : List Product) (c : Product → Bool)
    (h : (db.map Product.id).Nodup) (p : Product) (hp : p ∈ db) :
    (db.filter c).any (fun q => q.id == p.id) = c p := by
  cases hc : c p with
  | true => exact List.any_eq_true.mpr ⟨p, List.mem_filter.mpr ⟨hp, hc⟩, by simp⟩
  | false =>
      cases hval : (db.filter c).any (fun q => q.id == p.id) with
      | false => rfl
      | true =>
          exfalso
          obtain ⟨q, hq, hqid⟩ := List.any_eq_true.mp hval
          have hqdb := (List.mem_filter.mp hq).1
          have hqc := (List.mem_filter.mp hq).2
          have hqp : q = p :=
            List.inj_on_of_nodup_map h hqdb hp (by simpa using hqid)
          rw [hqp, hc] at hqc
          exact Bool.false_ne_true hqc

lemma nodup_ids_filter (db : List Product) (c : Product → Bool)
    (h : (db.map Product.id).Nodup) : ((db.filter c).map Product.id).Nodup :=
  List.Nodup.sublist (List.Sublist.map Product.id (List.filter_sublist db)) h

lemma dedupFiltered_eq (db : List Product) (c₁ c₂ : Product → Bool)
    (h : (db.map Product.id).Nodup) :
    dedupAppend (db.filter c₁) (db.filter c₂)
      = db.filter c₁ ++ db.filter (fun p => c₂ p && !c₁ p) := by
  rw [dedupAppend_eq _ _ (nodup_ids_filter db c₂ h), List.filter_filter]
  congr 1
  apply List.filter_congr
  intro p hp
  rw [any_filter_id db c₁ h p hp]
  cases c₁ p <;> cases c₂ p <;> rfl

lemma mem_dedupFiltered (db : List Product) (c₁ c₂ : Product → Bool)
    (h : (db.map Product.id).Nodup) (p : Product) (hp : p ∈ db) :
    p ∈ dedupAppend (db.filter c₁) (db.filter c₂) ↔ (c₁ p = true ∨ c₂ p = true) := by
  rw [dedupFiltered_eq db c₁ c₂ h]
  simp only [List.mem_append, List.mem_filter]
  constructor
  · rintro (⟨_, h1⟩ | ⟨_, h2⟩)
    · exact Or.inl h1
    · exact Or.inr ((Bool.and_eq_true _ _).mp h2).1
  · rintro (h1 | h2)
    · exact Or.inl ⟨hp, h1⟩
    · by_cases hc1 : c₁ p = true
      · exact Or.inl ⟨hp, hc1⟩
      · have hc1f : c₁ p = false := by simpa using hc1
        exact Or.inr ⟨hp, by simp [h2, hc1f]⟩

lemma nodup_dedupFiltered (db : List Product) (c₁ c₂ : Product → Bool)
    (h : (db.map Product.id).Nodup) :
    ((dedupAppend (db.filter c₁) (db.filter c₂)).map Product.id).Nodup := by
  rw [dedupFiltered_eq db c₁ c₂ h, List.map_append, List.nodup_append]
  refine ⟨nodup_ids_filter db c₁ h, nodup_ids_filter db _ h, ?_⟩
  intro a ha hb
  simp only [List.mem_map] at ha hb
  obtain ⟨q₁, hq₁, hid₁⟩ := ha
  obtain ⟨q₂, hq₂, hid₂⟩ := hb
  have hq₁db := (List.mem_filter.mp hq₁).1
  have hq₂db := (List.mem_filter.mp hq₂).1
  have heq : q₁ = q₂ :=
    List.inj_on_of_nodup_map h hq₁db hq₂db (hid₁.trans hid₂.symm)
  have hc₁ := (List.mem_filter.mp hq₁).2
  have hc₂ := (List.mem_filter.mp hq₂).2
  rw [← heq] at hc₂
  rw [Bool.and_eq_true, hc₁] at hc₂
  exact Bool.false_ne_true (by simpa using hc₂.2)

/-- `parseInt(req.params.threshold) || 10` of the low-stock query:
an absent or non-numeric parameter (`NaN`, falsy) and a parsed `0` (falsy)
both fall back to the default 10. -/
def resolveLowStockThreshold : Option Int → Int
  | none => 10
  | some n => if n = 0 then 10 else n

/-- Main-stock condition of the low-stock query: `{ stock: { $lt: threshold } }`. -/
def lowStockMainFilter (t : Int) (p : Product) : Bool :=
  decide (p.stock < t)

/-- Variant condition of the low-stock query:
`{ variants: { $elemMatch: { stock: { $lt: threshold } } } }` — `$elemMatch`
requires a single array element satisfying the sub-document. -/
def lowStockVariantFilter (t : Int) (p : Product) : Bool :=
  p.variants.any (fun v => decide (v.stock < t))

/-- `GET /api/inventory/low-stock/:threshold?`: the two fetches followed by
the combine-and-deduplicate loop. -/
def getLowStockItems (t : Int) (db : List Product) : List Product :=
  dedupAppend (db.filter (lowStockMainFilter t)) (db.filter (lowStockVariantFilter t))

/-- C3: the low-stock query returns exactly the products whose main stock is
strictly below the threshold or having a variant strictly below it, as a
deduplicated union: main-stock matches first in fetch order, then the
variant-only matches in fetch order, each matching product exactly once. -/
theorem low_stock_query_union_dedup (t : Int) (db : List Product)
    (h : (db.map Product.id).Nodup) :
    getLowStockItems t db
      = db.filter (lowStockMainFilter t)
        ++ db.filter (fun p => lowStockVariantFilter t p && !lowStockMainFilter t p) ∧
    ((getLowStockItems t db).map Product.id).Nodup ∧
    ∀ p ∈ db, (p ∈ getLowStockItems t db ↔
      (p.stock < t ∨ ∃ v ∈ p.variants, v.stock < t)) := by
  refine ⟨dedupFiltered_eq db _ _ h, nodup_dedupFiltered db _ _ h, ?_⟩
  intro p hp
  unfold getLowStockItems
  rw [mem_dedupFiltered db _ _ h p hp]
  simp [lowStockMainFilter, lowStockVariantFilter]

/-- Concrete product of the spec's dedup test: main stock 3, one variant with
stock 2, threshold 5 — matched by both fetches. -/
def lowWitnessProduct : Product :=
  { id := 3, name := "Cap", description := "", price := 4, stock := 3,
    inventoryLocation := none, inventoryStatus := none, category := none,
    variants := [⟨"S", "red", 2⟩] }

/-- Witness for C3: the doubly-matched product appears exactly once. -/
theorem low_stock_query_union_dedup_witness :
    getLowStockItems 5 [lowWitnessProduct] = [lowWitnessProduct] ∧
    ((getLowStockItems 5 [lowWitnessProduct]).map Product.id).Nodup :=
  ⟨by
    rw [(low_stock_query_union_dedup 5 [lowWitnessProduct] (by decide)).1]
    decide,
   (low_stock_query_union_dedup 5 [lowWitnessProduct] (by decide)).2.1⟩

/-- `parseInt(req.query.threshold) || 5` of the low-stock alert report. -/
def resolveAlertThreshold : Option Int → Int
  | none => 5
  | some n => if n = 0 then 5 else n

/-- Main-stock condition of the alert report:
`{ stock: { $lte: threshold, $gt: 0 } }` on a scalar field — both operators
constrain the same value. -/
def alertMainFilter (t : Int) (p : Product) : Bool :=
  decide (p.stock ≤ t) && decide (0 < p.stock)

/-- Variant condition of the alert report:
`{ 'variants.stock': { $lte: threshold, $gt: 0 } }` — a dotted-path,
multi-operator condition on an array field *without* `$elemMatch`. Per
MongoDB array-query semantics each operator may be satisfied by a different
array element, so the product matches as soon as some variant stock is
`≤ threshold` and some (possibly different) variant stock is `> 0`. -/
def alertVariantFilter (t : Int) (p : Product) : Bool :=
  (p.variants.any (fun v => decide (v.stock ≤ t)))
    && (p.variants.any (fun v => decide (0 < v.stock)))

/-- Selection phase of `GET /api/reports/low-stock`: two fetches combined
without duplicates. -/
def lowStockAlertSelect (t : Int) (db : List Product) : List Product :=
  dedupAppend (db.filter (alertMainFilter t)) (db.filter (alertVariantFilter t))

/-- Counterexample product for C10: zero main stock and variant stocks 0 and
100, none of which lies in `(0, 5]`. -/
def alertCxProduct : Product :=
  { id := 42, name := "Ghost", description := "", price := 1, stock := 0,
    inventoryLocation := none, inventoryStatus := none, category := none,
    variants := [⟨"S", "black", 0⟩, ⟨"L", "black", 100⟩] }

/-- C10 counterexample: at threshold 5 the alert selection returns
`alertCxProduct` even though its main stock is not in `(0, 5]` and no single
variant stock is in `(0, 5]` — the `$lte` and `$gt` operators of the
dotted-path condition are witnessed by two different variants. -/
theorem low_stock_alert_selection_cx :
    lowStockAlertSelect 5 [alertCxProduct] = [alertCxProduct] ∧
    ¬(0 < alertCxProduct.stock ∧ alertCxProduct.stock ≤ 5) ∧
    alertCxProduct.variants.all
      (fun v => !(decide (0 < v.stock) && decide (v.stock ≤ 5))) = true := by
  refine ⟨by decide, by decide, by decide⟩

/-- C10 (amended): the alert report includes a product iff its main stock s
satisfies 0 < s ≤ t, or some variant stock is ≤ t and some — possibly
different — variant stock is > 0; the threshold comparison is inclusive and
the default threshold is 5, unlike the low-stock query's strict `<` with
default 10. -/
theorem low_stock_alert_selection_amended (t : Int) (db : List Product)
    (h : (db.map Product.id).Nodup) :
    (∀ p ∈ db, (p ∈ lowStockAlertSelect t db ↔
      ((0 < p.stock ∧ p.stock ≤ t) ∨
       ((∃ v ∈ p.variants, v.stock ≤ t) ∧ (∃ v ∈ p.variants, 0 < v.stock))))) ∧
    resolveAlertThreshold none = 5 ∧ resolveLowStockThreshold none = 10 := by
  refine ⟨?_, rfl, rfl⟩
  intro p hp
  unfold lowStockAlertSelect
  rw [mem_dedupFiltered db _ _ h p hp]
  simp only [alertMainFilter, alertVariantFilter, Bool.and_eq_true, decide_eq_true_eq,
    List.any_eq_true]
  tauto

/-- Witness for the amended C10, at the counterexample input. -/
theorem low_stock_alert_selection_amended_witness :
    alertCxProduct ∈ lowStockAlertSelect 5 [alertCxProduct] ↔
      ((0 < alertCxProduct.stock ∧ alertCxProduct.stock ≤ 5) ∨
       ((∃ v ∈ alertCxProduct.variants, v.stock ≤ 5) ∧
        (∃ v ∈ alertCxProduct.variants, 0 < v.stock))) :=
  (low_stock_alert_selection_amended 5 [alertCxProduct] (by decide)).1
    alertCxProduct (by decide)

/-- One entry of the processed alert report (`reportRoutes.js` lines
182-207): the product's identity/name, its main stock quantity with the
`isLow` flag `stock <= threshold && stock > 0`, and the filtered list of
individually-low variants. -/
structure AlertEntry where
  id : Nat
  name : String
  mainQty : Int
  mainLow : Bool
  lowVariants : List Variant
deriving DecidableEq, Repr

/-- `processedProducts.map` body of the alert report. -/
def mkAlertEntry (t : Int) (p : Product) : AlertEntry :=
  { id := p.id, name := p.name, mainQty := p.stock,
    mainLow := decide (p.stock ≤ t) && decide (0 < p.stock),
    lowVariants := p.variants.filter (fun v => decide (v.stock ≤ t) && decide (0 < v.stock)) }

/-- `Math.min(...a.lowVariants.map(v => v.stock))`, `none` standing for the
`Infinity` produced on an empty list. -/
def lowestLowVariant (e : AlertEntry) : Option Int :=
  match e.lowVariants.map Variant.stock with
  | [] => none
  | s :: rest => some (rest.foldl min s)

/-- Order on lowest-variant values with `none` as `Infinity`; the
`Infinity - Infinity = NaN` comparator result is a tie, hence `≤`. -/
def lvLE : Option Int → Option Int → Bool
  | _, none => true
  | none, some _ => false
  | some a, some b => decide (a ≤ b)

/-- The sort comparator of the alert report read as a `≤` relation
(`compare(a, b) <= 0`): both main stocks low → by main quantity; exactly one
main stock low → it comes first; otherwise by lowest low-variant stock. -/
def severityLE (a b : AlertEntry) : Bool :=
  if a.mainLow && b.mainLow then decide (a.mainQty ≤ b.mainQty)
  else if a.mainLow then true
  else if b.mainLow then false
  else lvLE (lowestLowVariant a) (lowestLowVariant b)

/-- `GET /api/reports/low-stock`: select, process, sort ascending by
severity. -/
def getLowStockAlert (t : Int) (db : List Product) : List AlertEntry :=
  ((lowStockAlertSelect t db).map (mkAlertEntry t)).mergeSort severityLE

lemma lvLE_trans (o₁ o₂ o₃ : Option Int)
    (h₁ : lvLE o₁ o₂ = true) (h₂ : lvLE o₂ o₃ = true) : lvLE o₁ o₃ = true := by
  cases o₁ <;> cases o₂ <;> cases o₃ <;> simp [lvLE] at * <;> omega

lemma lvLE_total (o₁ o₂ : Option Int) : (lvLE o₁ o₂ || lvLE o₂ o₁) = true := by
  cases o₁ <;> cases o₂ <;> simp [lvLE] <;> omega

lemma severityLE_trans : ∀ a b c : AlertEntry,
    severityLE a b = true → severityLE b c = true → severityLE a c = true := by
  intro a b c h₁ h₂
  unfold severityLE at *
  by_cases ha : a.mainLow = true <;> by_cases hb : b.mainLow = true <;>
    by_cases hc : c.mainLow = true <;>
      simp only [ha, hb, hc, Bool.true_and, Bool.false_and, Bool.and_true, Bool.and_false,
        Bool.true_eq_false, Bool.false_eq_true, if_true, if_false, decide_eq_true_eq,
        Bool.not_eq_true] at * <;>
      first
        | omega
        | exact lvLE_trans _ _ _ h₁ h₂

lemma severityLE_total : ∀ a b : AlertEntry,
    (severityLE a b || severityLE b a) = true := by
  intro a b
  unfold severityLE
  by_cases ha : a.mainLow = true <;> by_cases hb : b.mainLow = true <;>
    simp only [ha, hb, Bool.true_and, Bool.false_and, Bool.and_true, Bool.and_false,
      Bool.true_eq_false, Bool.false_eq_true, if_true, if_false, decide_eq_true_eq,
      Bool.true_or, Bool.or_true]
  · rcases le_total a.mainQty b.mainQty with h | h <;> simp [h]
  · exact lvLE_total _ _

lemma lowestLowVariant_eq_none_iff (e : AlertEntry) :
    lowestLowVariant e = none ↔ e.lowVariants = [] := by
  cases h : e.lowVariants <;> simp [lowestLowVariant, h]

/-- C4: pairwise order of the sorted alert report: every low-main-stock
product precedes every product whose main stock is not low; among
low-main-stock products the order is by main quantity ascending; among
variant-only products the order is by lowest low-variant stock ascending;
and a product with neither a low main stock nor any low variant sorts after
every product that still has low variants. -/
theorem low_stock_alert_sorted (t : Int) (db : List Product) :
    List.Pairwise (fun a b =>
      (b.mainLow = true → a.mainLow = true) ∧
      (a.mainLow = true → b.mainLow = true → a.mainQty ≤ b.mainQty) ∧
      (a.mainLow = false → b.mainLow = false →
        ∀ x y, lowestLowVariant a = some x → lowestLowVariant b = some y → x ≤ y) ∧
      (a.mainLow = false → a.lowVariants = [] →
        b.mainLow = false ∧ b.lowVariants = []))
    (getLowStockAlert t db) := by
  have hs := List.sorted_mergeSort severityLE_trans severityLE_total
    ((lowStockAlertSelect t db).map (mkAlertEntry t))
  apply List.Pairwise.imp ?_ hs
  intro a b hab
  unfold severityLE at hab
  by_cases ha : a.mainLow = true
  · by_cases hb : b.mainLow = true
    · rw [ha, hb] at hab
      simp only [Bool.true_and, if_true, decide_eq_true_eq] at hab
      exact ⟨fun _ => ha, fun _ _ => hab,
        fun haf => absurd ha (by simp [haf]),
        fun haf => absurd ha (by simp [haf])⟩
    · exact ⟨fun hbt => absurd hbt hb, fun _ hbt => absurd hbt hb,
        fun haf => absurd ha (by simp [haf]),
        fun haf => absurd ha (by simp [haf])⟩
  · have haf : a.mainLow = false := by simpa using ha
    by_cases hb : b.mainLow = true
    · rw [haf, hb] at hab
      simp at hab
    · have hbf : b.mainLow = false := by simpa using hb
      rw [haf, hbf] at hab
      simp only [Bool.false_and, Bool.false_eq_true, if_false] at hab
      refine ⟨fun hbt => absurd hbt hb, fun hat => absurd hat ha, ?_, ?_⟩
      · intro _ _ x y hx hy
        rw [hx, hy] at hab
        simpa [lvLE] using hab
      · intro _ hempty
        have hnone : lowestLowVariant a = none :=
          (lowestLowVariant_eq_none_iff a).mpr hempty
        rw [hnone] at hab
        cases hlb : lowestLowVariant b with
        | none => exact ⟨hbf, (lowestLowVariant_eq_none_iff b).mp hlb⟩
        | some y =>
            rw [hlb] at hab
            simp [lvLE] at hab

/-- Concrete collection exercising all severity classes of the alert sort. -/
def alertWitnessDb : List Product :=
  [{ id := 1, name := "A", description := "", price := 1, stock := 4,
     inventoryLocation := none, inventoryStatus := none, category := none,
     variants := [] },
   { id := 2, name := "B", description := "", price := 1, stock := 0,
     inventoryLocation := none, inventoryStatus := none, category := none,
     variants := [⟨"S", "red", 2⟩] },
   { id := 3, name := "C", description := "", price := 1, stock := 1,
     inventoryLocation := none, inventoryStatus := none, category := none,
     variants := [] }]

/-- Witness for C4: the pairwise order theorem applied to a concrete
collection. -/
theorem low_stock_alert_sorted_witness :
    List.Pairwise (fun a b =>
      (b.mainLow = true → a.mainLow = true) ∧
      (a.mainLow = true → b.mainLow = true → a.mainQty ≤ b.mainQty) ∧
      (a.mainLow = false → b.mainLow = false →
        ∀ x y, lowestLowVariant a = some x → lowestLowVariant b = some y → x ≤ y) ∧
      (a.mainLow = false → a.lowVariants = [] →
        b.mainLow = false ∧ b.lowVariants = []))
    (getLowStockAlert 5 alertWitnessDb) :=
  low_stock_alert_sorted 5 alertWitnessDb

/-- Per-product value of the inventory value report (`reportRoutes.js` lines
17-31): `price * stock` plus the accumulated `price * variant.stock` over the
variant array. -/
def itemValue (p : Product) : Rat :=
  p.price * (p.stock : Rat) + (p.variants.map (fun v => p.price * (v.stock : Rat))).sum

/-- `product.category ? product.category.name : 'Uncategorized'`. -/
def categoryName (p : Product) : String :=
  match p.category with
  | some c => c.name
  | none => "Uncategorized"

/-- `parseFloat(x.toFixed(2))`: rounding to two decimal places. -/
def round2 (q : Rat) : Rat := ((round (q * 100) : Int) : Rat) / 100

/-- `categoryValues[categoryName] += itemValue` on a JavaScript object whose
string keys keep insertion order: update the existing entry in place or
append a fresh key at the end. -/
def addToCategory : List (String × Rat) → String → Rat → List (String × Rat)
  | [], k, v => [(k, v)]
  | (k₁, w) :: rest, k, v =>
      if k₁ == k then (k₁, w + v) :: rest
      else (k₁, w) :: addToCategory rest k v

/-- The category accumulation loop of the inventory value report. -/
def categoryValuesFold (db : List Product) : List (String × Rat) :=
  db.foldl (fun acc p => addToCategory acc (categoryName p) (itemValue p)) []

/-- Response shape of `GET /api/reports/inventory-value`. -/
structure InventoryValueReport where
  totalValue : Rat
  categories : List (String × Rat)
  productCount : Nat
deriving DecidableEq, Repr

/-- `GET /api/reports/inventory-value`: accumulate the grand total and the
per-category totals over all products, then round each output to 2 decimal
places (the grand total is rounded once, at the end). -/
def getInventoryValueReport (db : List Product) : InventoryValueReport :=
  { totalValue := round2 (db.foldl (fun acc p => acc + itemValue p) 0),
    categories := (categoryValuesFold db).map (fun kv => (kv.1, round2 kv.2)),
    productCount := db.length }

lemma foldl_add_itemValue : ∀ (db : List Product) (a : Rat),
    db.foldl (fun acc p => acc + itemValue p) a = a + (db.map itemValue).sum := by
  intro db
  induction db with
  | nil => intro a; simp
  | cons p rest ih =>
      intro a
      rw [List.foldl_cons, ih, List.map_cons, List.sum_cons]
      ring

lemma itemValue_eq (p : Product) :
    itemValue p
      = p.price * (p.stock : Rat)
        + p.price * ((p.variants.map (fun v => (v.stock : Rat))).sum) := by
  unfold itemValue
  congr 1
  induction p.variants with
  | nil => simp
  | cons v vs ih => simp [List.map_cons, List.sum_cons, mul_add, ih]

lemma addToCategory_lookup : ∀ (acc : List (String × Rat)) (k : String) (v : Rat)
    (k' : String),
    (addToCategory acc k v).lookup k'
      = if k' = k then some ((acc.lookup k).getD 0 + v) else acc.lookup k' := by
  intro acc
  induction acc with
  | nil =>
      intro k v k'
      by_cases h : k' = k
      · subst h
        simp [addToCategory, List.lookup_cons]
      · have hb : (k' == k) = false := beq_eq_false_iff_ne.mpr h
        simp [addToCategory, List.lookup_cons, hb, h]
  | cons kv rest ih =>
      intro k v k'
      obtain ⟨k₁, w⟩ := kv
      by_cases h1 : k₁ = k
      · subst h1
        by_cases h2 : k' = k₁
        · subst h2
          simp [addToCategory, List.lookup_cons]
        · have hb2 : (k' == k₁) = false := beq_eq_false_iff_ne.mpr h2
          simp [addToCategory, List.lookup_cons, hb2, h2]
      · have hb : (k₁ == k) = false := beq_eq_false_iff_ne.mpr h1
        by_cases h2 : k' = k₁
        · subst h2
          simp [addToCategory, hb, List.lookup_cons, h1]
        · have hb2 : (k' == k₁) = false := beq_eq_false_iff_ne.mpr h2
          have hb1 : (k == k₁) = false := beq_eq_false_iff_ne.mpr (Ne.symm h1)
          simp only [addToCategory, hb, Bool.false_eq_true, if_false, List.lookup_cons, hb2]
          rw [ih k v k']
          by_cases h3 : k' = k
          · subst h3
            simp [List.lookup_cons, hb1]
          · simp [h3]

lemma catFold_lookup : ∀ (db : List Product) (acc : List (String × Rat)) (k : String),
    (db.foldl (fun acc p => addToCategory acc (categoryName p) (itemValue p)) acc).lookup k
      = if (acc.lookup k).isSome ∨ db.any (fun p => categoryName p == k) then
          some ((acc.lookup k).getD 0
            + ((db.filter (fun p => categoryName p == k)).map itemValue).sum)
        else none := by
  intro db
  induction db with
  | nil =>
      intro acc k
      cases h : acc.lookup k <;> simp [h]
  | cons p rest ih =>
      intro acc k
      rw [List.foldl_cons, ih]
      simp only [addToCategory_lookup]
      by_cases hpk : categoryName p = k
      · subst hpk
        simp only [if_pos rfl, List.any_cons, List.filter_cons, beq_self_eq_true,
          Bool.true_or, Option.isSome_some, true_or, or_true, if_true, Option.getD_some,
          List.map_cons, List.sum_cons]
        rw [add_assoc]
      · have hbeq : (categoryName p == k) = false := beq_eq_false_iff_ne.mpr hpk
        have hne : ¬(k = categoryName p) := fun hc => hpk hc.symm
        simp only [if_neg hne, List.any_cons, hbeq, Bool.false_or, List.filter_cons,
          Bool.false_eq_true, if_false]

lemma addToCategory_keys (k : String) (v : Rat) : ∀ acc : List (String × Rat),
    (addToCategory acc k v).map Prod.fst
      = if k ∈ acc.map Prod.fst then acc.map Prod.fst else acc.map Prod.fst ++ [k] := by
  intro acc
  induction acc with
  | nil => simp [addToCategory]
  | cons kv rest ih =>
      obtain ⟨k₁, w⟩ := kv
      by_cases h1 : k₁ = k
      · subst h1
        have hb : (k₁ == k₁) = true := by simp
        simp [addToCategory, hb]
      · have hb : (k₁ == k) = false := by simp [h1]
        have hne : ¬(k = k₁) := fun hc => h1 (hc ▸ rfl)
        by_cases hmem : k ∈ rest.map Prod.fst
        · simp [addToCategory, hb, ih, hmem, hne]
        · simp [addToCategory, hb, ih, hmem, hne]

lemma catFold_nodup_keys : ∀ (db : List Product) (acc : List (String × Rat)),
    (acc.map Prod.fst).Nodup →
    ((db.foldl (fun acc p => addToCategory acc (categoryName p) (itemValue p)) acc).map
        Prod.fst).Nodup := by
  intro db
  induction db with
  | nil => intro acc h; exact h
  | cons p rest ih =>
      intro acc h
      rw [List.foldl_cons]
      apply ih
      rw [addToCategory_keys]
      by_cases hmem : categoryName p ∈ acc.map Prod.fst
      · simpa [hmem] using h
      · simp only [hmem, if_false]
        rw [List.nodup_append]
        exact ⟨h, List.nodup_singleton _, by
          intro a ha hb
          simp only [List.mem_singleton] at hb
          subst hb
          exact hmem ha⟩

lemma lookup_map_round2 : ∀ (l : List (String × Rat)) (k : String),
    (l.map (fun kv => (kv.1, round2 kv.2))).lookup k = (l.lookup k).map round2 := by
  intro l
  induction l with
  | nil => intro k; simp
  | cons kv rest ih =>
      intro k
      obtain ⟨k₁, w⟩ := kv
      by_cases h : k = k₁
      · subst h
        simp [List.lookup_cons]
      · have hb : (k == k₁) = false := by simp [h]
        simp [List.lookup_cons, hb, ih]

/-- Concrete product of the spec's value test: price 10, main stock 2, one
variant with stock 3. -/
def valueWitnessProduct : Product :=
  { id := 9, name := "Mug", description := "", price := 10, stock := 2,
    inventoryLocation := none, inventoryStatus := none, category := none,
    variants := [⟨"S", "white", 3⟩] }

/-- C6: the inventory value report returns the grand total
`round2 (Σ price·mainStock + price·(Σ variant stocks))`, per-category
subtotals rounded to 2 decimals and keyed (without duplicates) by category
name with "Uncategorized" for category-less products, and the product count;
the spec's concrete example evaluates to 50. -/
theorem inventory_value_report_spec (db : List Product) :
    (getInventoryValueReport db).totalValue
        = round2 ((db.map (fun p =>
            p.price * (p.stock : Rat)
              + p.price * ((p.variants.map (fun v => (v.stock : Rat))).sum))).sum) ∧
    (getInventoryValueReport db).productCount = db.length ∧
    ((getInventoryValueReport db).categories.map Prod.fst).Nodup ∧
    (∀ k : String, (getInventoryValueReport db).categories.lookup k
        = if db.any (fun p => categoryName p == k) then
            some (round2 (((db.filter (fun p => categoryName p == k)).map itemValue).sum))
          else none) ∧
    (getInventoryValueReport [valueWitnessProduct]).totalValue = 50 ∧
    (getInventoryValueReport [valueWitnessProduct]).categories
      = [("Uncategorized", 50)] := by
  refine ⟨?_, rfl, ?_, ?_, ?_, ?_⟩
  · show round2 (db.foldl (fun acc p => acc + itemValue p) 0) = _
    rw [foldl_add_itemValue db 0, zero_add]
    congr 1
    apply congrArg
    exact List.map_congr_left (fun p _ => itemValue_eq p)
  · show ((categoryValuesFold db).map (fun kv => (kv.1, round2 kv.2)) |>.map Prod.fst).Nodup
    rw [List.map_map]
    have : (Prod.fst ∘ fun kv : String × Rat => (kv.1, round2 kv.2)) = Prod.fst := rfl
    rw [this]
    exact catFold_nodup_keys db [] (by simp)
  · intro k
    show ((categoryValuesFold db).map (fun kv => (kv.1, round2 kv.2))).lookup k = _
    rw [lookup_map_round2]
    unfold categoryValuesFold
    rw [catFold_lookup db [] k]
    simp only [List.lookup_nil, Option.isSome_none, Bool.false_eq_true, false_or,
      Option.getD_none, zero_add]
    by_cases h : db.any (fun p => categoryName p == k) = true
    · simp [h]
    · have hf : db.any (fun p => categoryName p == k) = false := by simpa using h
      simp [hf]
  · show round2 ([valueWitnessProduct].foldl (fun acc p => acc + itemValue p) 0) = 50
    norm_num [itemValue, valueWitnessProduct, round2, round_eq]
  · show ((categoryValuesFold [valueWitnessProduct]).map (fun kv => (kv.1, round2 kv.2)))
        = [("Uncategorized", 50)]
    norm_num [categoryValuesFold, addToCategory, categoryName, valueWitnessProduct,
      itemValue, round2, round_eq]

/-- Witness for C6 at the spec's concrete input. -/
theorem inventory_value_report_spec_witness :
    (getInventoryValueReport [valueWitnessProduct]).totalValue = 50 ∧
    (getInventoryValueReport [valueWitnessProduct]).productCount = 1 :=
  ⟨(inventory_value_report_spec [valueWitnessProduct]).2.2.2.2.1,
   (inventory_value_report_spec [valueWitnessProduct]).2.1⟩

/-- Stock-level bucket of a product's main stock (`reportRoutes.js` lines
93-102): `0 → Out of Stock`, `≤ 5 → Low Stock`, `≤ 20 → Medium Stock`,
otherwise `High Stock`. -/
def stockLevel (s : Int) : String :=
  if s = 0 then "Out of Stock"
  else if s ≤ 5 then "Low Stock"
  else if s ≤ 20 then "Medium Stock"
  else "High Stock"

/-- Per-bucket count accumulated by `stockLevels[stockLevel].count++`. -/
def stockLevelCount (db : List Product) (level : String) : Nat :=
  db.countP (fun p => stockLevel p.stock == level)

lemma stockLevel_cases (s : Int) :
    stockLevel s = "Out of Stock" ∨ stockLevel s = "Low Stock" ∨
    stockLevel s = "Medium Stock" ∨ stockLevel s = "High Stock" := by
  unfold stockLevel
  split
  · exact Or.inl rfl
  · split
    · exact Or.inr (Or.inl rfl)
    · split
      · exact Or.inr (Or.inr (Or.inl rfl))
      · exact Or.inr (Or.inr (Or.inr rfl))

/-- C7: every main stock value falls in exactly one bucket, with the
boundaries 0 / 1–5 / 6–20 / >20 (in particular 5 → Low, 6 → Medium,
20 → Medium, 21 → High), and the four bucket counts partition the product
collection. -/
theorem stock_level_bucketing (s : Int) (db : List Product) :
    (s = 0 → stockLevel s = "Out of Stock") ∧
    (1 ≤ s → s ≤ 5 → stockLevel s = "Low Stock") ∧
    (6 ≤ s → s ≤ 20 → stockLevel s = "Medium Stock") ∧
    (20 < s → stockLevel s = "High Stock") ∧
    stockLevel 5 = "Low Stock" ∧ stockLevel 6 = "Medium Stock" ∧
    stockLevel 20 = "Medium Stock" ∧ stockLevel 21 = "High Stock" ∧
    stockLevelCount db "Out of Stock" + stockLevelCount db "Low Stock"
      + stockLevelCount db "Medium Stock" + stockLevelCount db "High Stock"
      = db.length := by
  refine ⟨?_, ?_, ?_, ?_, by decide, by decide, by decide, by decide, ?_⟩
  · intro h; simp [stockLevel, h]
  · intro h1 h2
    unfold stockLevel
    rw [if_neg (by omega), if_pos h2]
  · intro h1 h2
    unfold stockLevel
    rw [if_neg (by omega), if_neg (by omega), if_pos h2]
  · intro h
    unfold stockLevel
    rw [if_neg (by omega), if_neg (by omega), if_neg (by omega)]
  · induction db with
    | nil => rfl
    | cons p rest ih =>
        unfold stockLevelCount at *
        simp only [List.countP_cons]
        rcases stockLevel_cases p.stock with h | h | h | h <;> simp [h] <;> omega

/-- Witness for C7 at the boundary inputs of the spec. -/
theorem stock_level_bucketing_witness :
    stockLevel 0 = "Out of Stock" ∧ stockLevel 5 = "Low Stock" ∧
    stockLevel 6 = "Medium Stock" ∧ stockLevel 21 = "High Stock" :=
  ⟨(stock_level_bucketing 0 []).1 rfl,
   (stock_level_bucketing 5 []).2.1 (by omega) (by omega),
   (stock_level_bucketing 6 []).2.2.1 (by omega) (by omega),
   (stock_level_bucketing 21 []).2.2.2.1 (by omega)⟩

/-- One item of the bulk-update request body: `{ productId, stock, location,
status, variants }`, the non-id fields regrouped as an `InventoryUpdate`. -/
structure BulkItem where
  productId : Nat
  update : InventoryUpdate

/-- One result entry of the bulk update: `{ productId, success, message? }`. -/
structure BatchResult where
  productId : Nat
  success : Bool
  message : Option String
deriving DecidableEq, Repr

/-- The `updates` field of the bulk-update body: absent, present but not an
array, or an array of items (`!updates || !Array.isArray(updates)`). -/
inductive UpdatesInput where
  | absent
  | notArray
  | given (items : List BulkItem)

/-- Loop body of `PUT /api/inventory/bulk-update`: look the product up; a
missing product records a failure entry and continues; otherwise the update
is applied, saved, and a success entry recorded. -/
def bulkStep (st : List Product × List BatchResult) (item : BulkItem) :
    List Product × List BatchResult :=
  match findById st.1 item.productId with
  | none => (st.1, st.2 ++ [⟨item.productId, false, some "Product not found"⟩])
  | some p =>
      (saveProduct st.1 (applyInventoryUpdate p item.update),
       st.2 ++ [⟨item.productId, true, none⟩])

/-- `PUT /api/inventory/bulk-update`: reject a missing or non-array `updates`
field with a 400 error before touching anything, otherwise process the items
in order and return the final collection with the per-item results. -/
def bulkUpdateInventory (db : List Product) (input : UpdatesInput) :
    Except String (List Product × List BatchResult) :=
  match input with
  | .absent => .error "Invalid updates format"
  | .notArray => .error "Invalid updates format"
  | .given items => .ok (items.foldl bulkStep (db, []))

/-- The collection as left behind by the route: unchanged on a 400. -/
def bulkRouteDb (db : List Product) (input : UpdatesInput) : List Product :=
  match bulkUpdateInventory db input with
  | .error _ => db
  | .ok (db', _) => db'

/-- Effect of one item on the collection alone. -/
def applyBulkItem (db : List Product) (item : BulkItem) : List Product :=
  match findById db item.productId with
  | none => db
  | some p => saveProduct db (applyInventoryUpdate p item.update)

lemma saveProduct_map_id (db : List Product) (p : Product) :
    (saveProduct db p).map Product.id = db.map Product.id := by
  unfold saveProduct
  rw [List.map_map]
  apply List.map_congr_left
  intro q _
  simp only [Function.comp_apply]
  by_cases h : (q.id == p.id) = true
  · simp only [h, if_true]
    exact (beq_iff_eq.mp h).symm
  · have hf : (q.id == p.id) = false := by simpa using h
    simp [hf]

lemma applyBulkItem_map_id (db : List Product) (item : BulkItem) :
    (applyBulkItem db item).map Product.id = db.map Product.id := by
  unfold applyBulkItem
  cases h : findById db item.productId with
  | none => rfl
  | some p => exact saveProduct_map_id db _

lemma any_id_congr (db db' : List Product) (pid : Nat)
    (h : db.map Product.id = db'.map Product.id) :
    db.any (fun p => p.id == pid) = db'.any (fun p => p.id == pid) := by
  have h1 : ∀ l : List Product,
      l.any (fun p => p.id == pid) = (l.map Product.id).any (fun i => i == pid) := by
    intro l
    induction l with
    | nil => rfl
    | cons q rest ih => simp [List.any_cons, ih]
  rw [h1, h1, h]

lemma findById_isSome (db : List Product) (pid : Nat) :
    (findById db pid).isSome = db.any (fun p => p.id == pid) := by
  unfold findById
  cases h : db.find? (fun p => p.id == pid) with
  | none =>
      have := List.find?_eq_none.mp h
      symm
      simp only [Option.isSome_none]
      rcases hval : db.any (fun p => p.id == pid) with _ | _
      · rfl
      · obtain ⟨q, hq, hqid⟩ := List.any_eq_true.mp hval
        exact absurd hqid (this q hq)
  | some p =>
      symm
      have hq : (p.id == pid) = true := @List.find?_some _ (fun q => q.id == pid) p db h
      exact List.any_eq_true.mpr ⟨p, List.mem_of_find?_eq_some h, hq⟩

lemma bulkStep_fst (st : List Product × List BatchResult) (item : BulkItem) :
    (bulkStep st item).1 = applyBulkItem st.1 item := by
  unfold bulkStep applyBulkItem
  cases h : findById st.1 item.productId <;> simp [h]

lemma bulk_results_eq : ∀ (items : List BulkItem) (db : List Product)
    (res : List BatchResult),
    (items.foldl bulkStep (db, res)).2
      = res ++ items.map (fun it =>
          if db.any (fun p => p.id == it.productId)
          then (⟨it.productId, true, none⟩ : BatchResult)
          else ⟨it.productId, false, some "Product not found"⟩) := by
  intro items
  induction items with
  | nil => intro db res; simp
  | cons it rest ih =>
      intro db res
      rw [List.foldl_cons, List.map_cons]
      cases h : findById db it.productId with
      | none =>
          have hany : db.any (fun p => p.id == it.productId) = false := by
            rw [← findById_isSome, h]
            rfl
          have hstep : bulkStep (db, res) it
              = (db, res ++ [⟨it.productId, false, some "Product not found"⟩]) := by
            unfold bulkStep
            rw [h]
          rw [hstep, ih]
          simp [hany]
      | some p =>
          have hany : db.any (fun p => p.id == it.productId) = true := by
            rw [← findById_isSome, h]
            rfl
          have hstep : bulkStep (db, res) it
              = (saveProduct db (applyInventoryUpdate p it.update),
                 res ++ [⟨it.productId, true, none⟩]) := by
            unfold bulkStep
            rw [h]
          rw [hstep, ih]
          have hids : (saveProduct db (applyInventoryUpdate p it.update)).map Product.id
              = db.map Product.id := saveProduct_map_id db _
          have hmap : rest.map (fun it' =>
              if (saveProduct db (applyInventoryUpdate p it.update)).any
                  (fun q => q.id == it'.productId)
              then (⟨it'.productId, true, none⟩ : BatchResult)
              else ⟨it'.productId, false, some "Product not found"⟩)
            = rest.map (fun it' =>
              if db.any (fun q => q.id == it'.productId)
              then (⟨it'.productId, true, none⟩ : BatchResult)
              else ⟨it'.productId, false, some "Product not found"⟩) := by
            apply List.map_congr_left
            intro it' _
            rw [any_id_congr _ db it'.productId hids]
          rw [hmap]
          simp [hany]

lemma bulk_fst_foldl : ∀ (items : List BulkItem) (st : List Product × List BatchResult),
    (items.foldl bulkStep st).1 = items.foldl applyBulkItem st.1 := by
  intro items
  induction items with
  | nil => intro st; rfl
  | cons it rest ih =>
      intro st
      rw [List.foldl_cons, List.foldl_cons, ih, bulkStep_fst]

lemma bulk_db_skips_invalid : ∀ (items : List BulkItem) (db : List Product),
    items.foldl applyBulkItem db
      = (items.filter (fun it => db.any (fun p => p.id == it.productId))).foldl
          applyBulkItem db := by
  intro items
  induction items with
  | nil => intro db; rfl
  | cons it rest ih =>
      intro db
      rw [List.foldl_cons, List.filter_cons]
      cases hany : db.any (fun p => p.id == it.productId) with
      | false =>
          have hfind : findById db it.productId = none := by
            have := findById_isSome db it.productId
            rw [hany] at this
            exact Option.eq_none_of_isNone (by simpa using this)
          have hskip : applyBulkItem db it = db := by
            unfold applyBulkItem
            rw [hfind]
          simp only [Bool.false_eq_true, if_false]
          rw [hskip, ih db]
      | true =>
          simp only [if_true, List.foldl_cons]
          rw [ih (applyBulkItem db it)]
          have hids := applyBulkItem_map_id db it
          have hfilter : rest.filter (fun it' =>
                (applyBulkItem db it).any (fun p => p.id == it'.productId))
              = rest.filter (fun it' => db.any (fun p => p.id == it'.productId)) := by
            apply List.filter_congr
            intro it' _
            rw [any_id_congr _ db it'.productId hids]
          rw [hfilter]

/-- C8: the bulk update rejects a missing or non-array `updates` field with a
400 error and leaves the collection untouched; otherwise it emits exactly
one result entry per input item in order — success iff the product id exists
in the collection, failure entries carrying the not-found message — and the
final collection is exactly the one obtained by applying the valid items
alone, so each valid item's update is persisted independently of any other
item's failure. -/
theorem bulk_update_independent_items (db : List Product) (items : List BulkItem) :
    bulkUpdateInventory db .absent = .error "Invalid updates format" ∧
    bulkUpdateInventory db .notArray = .error "Invalid updates format" ∧
    bulkRouteDb db .absent = db ∧
    bulkRouteDb db .notArray = db ∧
    (∀ out, bulkUpdateInventory db (.given items) = .ok out →
      (out.2 = items.map (fun it =>
          if db.any (fun p => p.id == it.productId)
          then (⟨it.productId, true, none⟩ : BatchResult)
          else ⟨it.productId, false, some "Product not found"⟩) ∧
       out.2.length = items.length ∧
       out.1 = items.foldl applyBulkItem db ∧
       out.1 = (items.filter (fun it =>
          db.any (fun p => p.id == it.productId))).foldl applyBulkItem db)) := by
  refine ⟨rfl, rfl, rfl, rfl, ?_⟩
  intro out hout
  have hout' : out = items.foldl bulkStep (db, []) := by
    have : bulkUpdateInventory db (.given items) = .ok (items.foldl bulkStep (db, [])) := rfl
    rw [this] at hout
    exact (Except.ok.injEq _ _ ▸ hout.symm : _)
  subst hout'
  have hres := bulk_results_eq items db []
  rw [List.nil_append] at hres
  refine ⟨hres, ?_, ?_, ?_⟩
  · rw [hres, List.length_map]
  · exact bulk_fst_foldl items (db, [])
  · rw [bulk_fst_foldl items (db, [])]
    exact bulk_db_skips_invalid items db

/-- Concrete data for the C8 witness: the spec's example batch
`[{id: A valid}, {id: B invalid}]`. -/
def bulkWitnessDb : List Product :=
  [{ id := 1, name := "A", description := "", price := 2, stock := 5,
     inventoryLocation := none, inventoryStatus := none, category := none,
     variants := [] }]

/-- Witness for C8: item A succeeds and is persisted (stock set to 9) even
though item B fails. -/
theorem bulk_update_independent_items_witness :
    ∃ out, bulkUpdateInventory bulkWitnessDb
        (.given [⟨1, ⟨some 9, none, none, none⟩⟩, ⟨2, ⟨some 3, none, none, none⟩⟩])
        = .ok out ∧
      out.2 = [⟨1, true, none⟩, ⟨2, false, some "Product not found"⟩] ∧
      (out.1.map Product.stock) = [9] := by
  refine ⟨_, rfl, ?_, ?_⟩
  · rw [(bulk_update_independent_items bulkWitnessDb
      [⟨1, ⟨some 9, none, none, none⟩⟩, ⟨2, ⟨some 3, none, none, none⟩⟩]).2.2.2.2 _ rfl |>.1]
    rfl
  · rfl

/-- Character-list version of `startsWith`, used to embed the
case-insensitive `$regex` substring match of the keyword filter. -/
def startsWithChars : List Char → List Char → Bool
  | _, [] => true
  | [], _ :: _ => false
  | c :: cs, p :: ps => c == p && startsWithChars cs ps

/-- Substring test on character lists. -/
def containsChars : List Char → List Char → Bool
  | [], pat => pat.isEmpty
  | hay@(_ :: rest), pat => startsWithChars hay pat || containsChars rest pat

/-- `{ $regex: keyword, $options: 'i' }`: case-insensitive substring match. -/
def containsCI (hay pat : String) : Bool :=
  containsChars hay.toLower.toList pat.toLower.toList

/-- Query parameters of `GET /api/search` relevant to filtering; `none`
stands for an absent parameter, `inStock` is `some true` / `some false` only
for the literal strings `'true'` / `'false'`. -/
structure SearchParams where
  keyword : Option String
  category : Option Nat
  minPrice : Option Rat
  maxPrice : Option Rat
  inStock : Option Bool
  size : Option String
  color : Option String

/-- Whether a product satisfies the filter object built by `GET /api/search`
(`inventoryRoutes.js` search router lines 206-277), under MongoDB
evaluation semantics:
* keyword: `$or` of case-insensitive substring matches on name/description;
* category: equality on the stored reference;
* price: inclusive `$gte`/`$lte` bounds;
* `inStock='true'` → main `stock > 0`, `'false'` → main `stock == 0`;
* when size and/or color is supplied, a `$and`-pushed object of dotted-path
  conditions `variants.size`, `variants.color` and (when `inStock='true'`)
  `variants.stock: {$gt: 0}` — dotted paths on an array are each satisfied
  by *some* array element, independently of one another. -/
def searchMatches (q : SearchParams) (p : Product) : Bool :=
  (match q.keyword with
   | some kw => containsCI p.name kw || containsCI p.description kw
   | none => true) &&
  (match q.category with
   | some c => (match p.category with
       | some cat => cat.id == c
       | none => false)
   | none => true) &&
  (match q.minPrice with
   | some m => decide (m ≤ p.price)
   | none => true) &&
  (match q.maxPrice with
   | some m => decide (p.price ≤ m)
   | none => true) &&
  (match q.inStock with
   | some true => decide (0 < p.stock)
   | some false => decide (p.stock = 0)
   | none => true) &&
  (if q.size.isSome || q.color.isSome then
     (match q.size with
      | some s => p.variants.any (fun v => v.size == s)
      | none => true) &&
     (match q.color with
      | some c => p.variants.any (fun v => v.color == c)
      | none => true) &&
     (match q.inStock with
      | some true => p.variants.any (fun v => decide (0 < v.stock))
      | _ => true)
   else true)

/-- Whether one variant satisfies the `$elemMatch` sub-document built by
`GET /api/search/variants` for the supplied size/color/inStock. -/
def variantElemMatch (size color : Option String) (inStock : Bool) (v : Variant) : Bool :=
  (match size with
   | some s => v.size == s
   | none => true) &&
  (match color with
   | some c => v.color == c
   | none => true) &&
  (!inStock || decide (0 < v.stock))

/-- `GET /api/search/variants`: missing both size and color is a 400;
otherwise products are matched by `variants: { $elemMatch: ... }`, which
requires a *single* variant to satisfy all supplied conditions at once. -/
def searchByVariants (size color : Option String) (inStock : Bool)
    (db : List Product) : Except String (List Product) :=
  if size.isNone && color.isNone then
    .error "Please provide at least size or color"
  else
    .ok (db.filter (fun p => p.variants.any (variantElemMatch size color inStock)))

/-- Search parameters of the C5 counterexample: size "M" with
`inStock='true'` and no other filter. -/
def searchCxParams : SearchParams :=
  { keyword := none, category := none, minPrice := none, maxPrice := none,
    inStock := some true, size := some "M", color := none }

/-- Counterexample product for C5: positive main stock, one size-M variant
with zero stock and one size-L variant with positive stock — no single
variant has both size M and positive stock. -/
def searchCxProduct : Product :=
  { id := 7, name := "Tee", description := "plain tee", price := 10, stock := 10,
    inventoryLocation := none, inventoryStatus := none, category := none,
    variants := [⟨"M", "red", 0⟩, ⟨"L", "blue", 5⟩] }

/-- C5 counterexample: the faceted search accepts `searchCxProduct` for
`size=M, inStock=true` although none of its variants satisfies size M and
positive stock simultaneously — the dotted-path conditions are witnessed by
two different variants, so the in-stock constraint is *not* scoped to the
size-matching variant. -/
theorem search_variant_scope_cx :
    searchMatches searchCxParams searchCxProduct = true ∧
    searchCxProduct.variants.any
      (fun v => v.size == "M" && decide (0 < v.stock)) = false := by
  exact ⟨rfl, rfl⟩

/-- C5 (amended): in `GET /api/search`, each supplied variant constraint is
satisfied by *some* variant, possibly a different one per constraint: the
product matches iff its main stock is positive (top-level in-stock filter),
every supplied size/color is worn by some variant, and — because
`inStock='true'` adds a dotted-path `variants.stock: {$gt: 0}` condition —
some variant has positive stock; single-variant scoping holds only in
`GET /api/search/variants`, whose `$elemMatch` requires one variant
satisfying all supplied conditions simultaneously. -/
theorem search_variant_scope_amended (p : Product) (s c : Option String) :
    (searchMatches
        { keyword := none, category := none, minPrice := none, maxPrice := none,
          inStock := some true, size := s, color := c } p = true ↔
      (0 < p.stock ∧
       (∀ s₀, s = some s₀ → ∃ v ∈ p.variants, v.size = s₀) ∧
       (∀ c₀, c = some c₀ → ∃ v ∈ p.variants, v.color = c₀) ∧
       ((s.isSome ∨ c.isSome) → ∃ v ∈ p.variants, 0 < v.stock))) ∧
    (p.variants.any (variantElemMatch s c true) = true ↔
      ∃ v ∈ p.variants,
        (∀ s₀, s = some s₀ → v.size = s₀) ∧
        (∀ c₀, c = some c₀ → v.color = c₀) ∧
        0 < v.stock) := by
  constructor
  · unfold searchMatches
    cases s <;> cases c <;>
      simp [List.any_eq_true, beq_iff_eq, and_assoc]
  · unfold variantElemMatch
    rw [List.any_eq_true]
    cases s <;> cases c <;>
      simp [List.any_eq_true, beq_iff_eq, and_assoc]

/-- Witness for the amended C5, at the counterexample input: the iff
characterization applied to the concrete product and parameters. -/
theorem search_variant_scope_amended_witness :
    searchMatches searchCxParams searchCxProduct = true ↔
      (0 < searchCxProduct.stock ∧
       (∀ s₀, (some "M" : Option String) = some s₀ →
          ∃ v ∈ searchCxProduct.variants, v.size = s₀) ∧
       (∀ c₀, (none : Option String) = some c₀ →
          ∃ v ∈ searchCxProduct.variants, v.color = c₀) ∧
       (((some "M" : Option String).isSome ∨ (none : Option String).isSome) →
          ∃ v ∈ searchCxProduct.variants, 0 < v.stock)) :=
  (search_variant_scope_amended searchCxProduct (some "M") none).1

end Catalog
